import Mathlib

/-!
# Forest production technology: embedding and verified properties

Shallow embedding of
`src/objects/technologies/source/forest_production_technology.cpp`.

Conventions of the embedding.

* `double` values are exact rationals (`ℚ`): every statement below is a
  statement of exact arithmetic.  `pow( x, n )` with an integer-valued
  exponent is the integer power `x ^ n`.  Division by a zero `double` (which
  gives an infinity or a NaN in the program) is not given a meaning of its own:
  a quotient written in a statement is the expression the program evaluates,
  and no proof below uses the value of a quotient by zero.
* `int` values are `Int`; `/` on two `int`s is `Int.tdiv` (truncation toward
  zero) and aborts on a zero divisor.
* `assert( c )` aborts the call with `Failure.assertion` when `c` is false.
* The land allocator and the marketplace are collaborators held by pointer.
  Every call that writes to one of them is appended to `World.calls`, in program
  order; values read from collaborators come from `Env`.
-/

namespace ForestProduction

/-- Reasons for which a member function aborts instead of returning. -/
inductive Failure where
  /-- An `assert( ... )` whose condition is false. -/
  | assertion
  /-- An `int` division whose divisor is zero. -/
  | divideByZero
  deriving DecidableEq, Repr

/-- The two queries of `Modeltime` used by the technology. The class itself is
declared outside the translated file, so its answers are parameters. -/
structure Modeltime where
  /-- Length in years of the timestep of a period: `gettimestep( period )`. -/
  gettimestep : Int → Int
  /-- Period of a year: `getyr_to_per( year )`. -/
  getyr_to_per : Int → Int

/-- Writes sent to the collaborators, with their arguments in source order. -/
inductive Call where
  /-- `mLandAllocator->setIntrinsicRate( region, landType, name, rate, period )`. -/
  | setIntrinsicRate (region landType name : String) (rate : ℚ) (period : Int)
  /-- `mLandAllocator->calcYield( landType, name, region, rate, harvestPeriod, period )`. -/
  | calcYield (landType name region : String) (rate : ℚ) (harvestPeriod period : Int)
  /-- `mLandAllocator->setCalLandAllocation( landType, name, landUsed, period, basePeriod )`. -/
  | setCalLandAllocation (landType name : String) (calLandUsed : ℚ) (period basePeriod : Int)
  /-- `mLandAllocator->setCalObservedYield( landType, name, yield, period )`. -/
  | setCalObservedYield (landType name : String) (calObservedYield : ℚ) (period : Int)
  /-- `marketplace->addToSupply( good, region, quantity, period )`. -/
  | addToSupply (good region : String) (quantity : ℚ) (period : Int)
  deriving DecidableEq, Repr

/-- The members of `ForestProductionTechnology` (own and inherited) that the
translated functions read or write. -/
structure ForestProductionTechnology where
  /-- Technology name. -/
  mName : String
  /-- Technology year (the planting year). -/
  year : Int
  /-- Land type of the technology. -/
  landType : String
  /-- Interest rate used to level the harvest profit. -/
  interestRate : ℚ
  /-- Rotation period in years. -/
  mRotationPeriod : Int
  /-- Member `mFutureProduction`; `none` when `isInited()` is false. -/
  mFutureProduction : Option ℚ
  /-- Member `mCalValue`: `none` for a null pointer, otherwise the value of
  `mCalValue->getCalOutput( 1 )`. -/
  mCalValue : Option ℚ
  /-- Calibrated yield; `-1` means not read in. -/
  calYield : ℚ
  /-- Exogenous productivity change rate. -/
  agProdChange : ℚ
  /-- Observed calibrated yield. -/
  calObservedYield : ℚ
  /-- Calibrated land used. -/
  calLandUsed : ℚ
  /-- Stored cost per period. -/
  mCosts : Int → ℚ
  /-- Stored input per period. -/
  mInput : Int → ℚ
  /-- Physical output per period held by the primary output `mOutputs[ 0 ]`. -/
  physicalOutput : Int → ℚ

/-- Values the technology reads from its surroundings during one call. -/
structure Env where
  /-- The model time of the scenario. -/
  modeltime : Modeltime
  /-- `mProductionState[ period ]->isOperating()`. -/
  isOperating : Int → Bool
  /-- `FoodProductionTechnology::calcProfitRate( region, product, period )`, the
  profit rate of the parent class (defined outside the translated file). -/
  baseProfitRate : String → String → Int → ℚ
  /-- `calcSupply( region, product, period )` of the parent class. -/
  calcSupply : String → String → Int → ℚ
  /-- `mLandAllocator->getLandAllocation( landType, name, period )`. -/
  getLandAllocation : String → String → Int → ℚ

/-- The technology together with the collaborators it writes to. -/
structure World where
  /-- The technology object. -/
  tech : ForestProductionTechnology
  /-- Calls received by the land allocator and the marketplace, oldest first. -/
  calls : List Call
  /-- Supply held by the marketplace per good, region and period. -/
  supply : String → String → Int → ℚ

/-- Constructor body: `interestRate = 0.02; mRotationPeriod = 0;` applied to the
object `base` left by the parent constructor; `mFutureProduction` is default
constructed, hence not initialised. -/
def construct (base : ForestProductionTechnology) : ForestProductionTechnology :=
  { base with interestRate := 2 / 100, mRotationPeriod := 0, mFutureProduction := none }

/-- `pow( x, n )` for an integer-valued exponent. -/
def pow (x : ℚ) (n : Int) : ℚ := x ^ n

/-- Modelled from the spec: `Marketplace::addToSupply` is not part of the
translated file; the marketplace "receives supply contributions", so a call adds
the quantity to the supply held for that good, region and period. -/
def addToSupply (supply : String → String → Int → ℚ) (good region : String)
    (quantity : ℚ) (period : Int) : String → String → Int → ℚ :=
  fun g r p =>
    if g = good ∧ r = region ∧ p = period then supply g r p + quantity else supply g r p

/-- Modelled from the spec: `IOutput::setPhysicalOutput` is not part of the
translated file; it stores the physical output of the primary output for the
period. -/
def setPhysicalOutput (t : ForestProductionTechnology) (output : ℚ) (period : Int) :
    ForestProductionTechnology :=
  { t with physicalOutput := Function.update t.physicalOutput period output }

/-- Modelled from the spec: `Technology::calcEmissionsAndOutputs` is not part of
the translated file; it realises the output of the period by storing the primary
output (emissions accounting is outside the model). -/
def calcEmissionsAndOutputs (t : ForestProductionTechnology) (_input primaryOutput : ℚ)
    (period : Int) : ForestProductionTechnology :=
  setPhysicalOutput t primaryOutput period

/-- `ForestProductionTechnology::calcDiscountFactor`. -/
def calcDiscountFactor (t : ForestProductionTechnology) : Except Failure ℚ :=
  if t.mRotationPeriod > 0 then
    .ok (t.interestRate / (pow (1 + t.interestRate) t.mRotationPeriod - 1))
  else
    .error .assertion

/-- `ForestProductionTechnology::getHarvestPeriod`. -/
def getHarvestPeriod (mt : Modeltime) (t : ForestProductionTechnology)
    (aCurrentPeriod : Int) : Except Failure Int :=
  let timestep := mt.gettimestep (mt.getyr_to_per t.year)
  if timestep = 0 then .error .divideByZero
  else .ok (aCurrentPeriod + t.mRotationPeriod.tdiv timestep)

/-- `ForestProductionTechnology::getFutureMarket`. -/
def getFutureMarket (aProductName : String) : String :=
  "Future" ++ aProductName

/-- `ForestProductionTechnology::calcProfitRate`. -/
def calcProfitRate (env : Env) (t : ForestProductionTechnology)
    (aRegionName aProductName : String) (aPeriod : Int) : Except Failure ℚ :=
  let profitRate := env.baseProfitRate aRegionName aProductName aPeriod
  match calcDiscountFactor t with
  | .error e => .error e
  | .ok discountFactor => .ok (profitRate * discountFactor)

/-- `ForestProductionTechnology::calcCost`. -/
def calcCost (env : Env) (w : World) (aRegionName aSectorName : String)
    (aPeriod : Int) : Except Failure World :=
  if !env.isOperating aPeriod then .ok w
  else
    match calcProfitRate env w.tech aRegionName (getFutureMarket aSectorName) aPeriod with
    | .error e => .error e
    | .ok profitRate =>
      .ok { w with
            calls := w.calls ++
              [Call.setIntrinsicRate aRegionName w.tech.landType w.tech.mName profitRate aPeriod]
            tech := { w.tech with mCosts := Function.update w.tech.mCosts aPeriod 1 } }

/-- `ForestProductionTechnology::production`. The demand and the scale factor
are accepted and, as in the source, not used. -/
def production (env : Env) (w : World) (aRegionName aSectorName : String)
    (_aVariableDemand _aFixedOutputScaleFactor : ℚ) (aPeriod : Int) : Except Failure World :=
  if !env.isOperating aPeriod then
    .ok { w with tech := setPhysicalOutput w.tech 0 aPeriod }
  else
    match calcProfitRate env w.tech aRegionName (getFutureMarket aSectorName) aPeriod with
    | .error e => .error e
    | .ok profitRate =>
      match getHarvestPeriod env.modeltime w.tech aPeriod with
      | .error e => .error e
      | .ok harvestPeriod =>
        let futureSupply := env.calcSupply aRegionName aSectorName harvestPeriod
        let primaryOutput := env.calcSupply aRegionName aSectorName aPeriod
        let input := env.getLandAllocation w.tech.landType w.tech.mName aPeriod
        let t1 := { w.tech with mInput := Function.update w.tech.mInput aPeriod input }
        .ok { tech := calcEmissionsAndOutputs t1 input primaryOutput aPeriod
              calls := w.calls ++
                [Call.calcYield w.tech.landType w.tech.mName aRegionName profitRate
                   harvestPeriod aPeriod,
                 Call.addToSupply (getFutureMarket aSectorName) aRegionName futureSupply aPeriod]
              supply := addToSupply w.supply (getFutureMarket aSectorName) aRegionName
                futureSupply aPeriod }

/-- Local variables and members written by the loop of `setCalLandValues`. -/
structure CalLoop where
  /-- Local `calProductionTemp`. -/
  calProductionTemp : ℚ
  /-- Local `calYieldTemp`. -/
  calYieldTemp : ℚ
  /-- Member `calLandUsed`. -/
  calLandUsed : ℚ
  /-- Member `calObservedYield`. -/
  calObservedYield : ℚ
  /-- Calls received by the land allocator, oldest first. -/
  calls : List Call

/-- One pass through the body of the loop of `setCalLandValues` at counter `i`;
`calOutput` is `mCalValue->getCalOutput( 1 )`. -/
def calLoopBody (t : ForestProductionTechnology) (calOutput : ℚ)
    (timestep period nRotPeriodSteps : Int) (i : Int) (st : CalLoop) : CalLoop :=
  let calProductionTemp :=
    if i > period then
      st.calProductionTemp + (t.mFutureProduction.getD 0 - calOutput) / (nRotPeriodSteps : ℚ)
    else st.calProductionTemp
  let calYieldTemp :=
    if i > period then t.calYield * pow (1 + t.agProdChange) (timestep * (i - 1))
    else st.calYieldTemp
  let calLandUsed := calProductionTemp / calYieldTemp
  { calProductionTemp := calProductionTemp
    calYieldTemp := calYieldTemp
    calLandUsed := calLandUsed
    calObservedYield := if i = period then calYieldTemp else st.calObservedYield
    calls := st.calls ++
      [Call.setCalLandAllocation t.landType t.mName calLandUsed i period,
       Call.setCalObservedYield t.landType t.mName calYieldTemp i] }

/-- The loop `for ( int i = ...; i <= last; i++ ) body`, entered with counter
`i`; `fuel` bounds the number of passes. -/
def calLoop (body : Int → CalLoop → CalLoop) (last : Int) : Nat → Int → CalLoop → CalLoop
  | 0, _, st => st
  | fuel + 1, i, st => if i ≤ last then calLoop body last fuel (i + 1) (body i st) else st

/-- The local `nRotPeriodSteps` of `setCalLandValues` as first computed:
`mRotationPeriod / timestep`, with the timestep of the period of the technology
year. Only used where that timestep is not zero. -/
def nRotPeriodSteps (mt : Modeltime) (t : ForestProductionTechnology) : Int :=
  t.mRotationPeriod.tdiv (mt.gettimestep (mt.getyr_to_per t.year))

/-- Locals and members as they stand when the loop of `setCalLandValues` is
entered: `calObservedYield = 0`, `calProductionTemp = getCalOutput( 1 )`,
`calYieldTemp = calYield`. -/
def calLoopStart (t : ForestProductionTechnology) (calOutput : ℚ) (calls : List Call) :
    CalLoop :=
  { calProductionTemp := calOutput
    calYieldTemp := t.calYield
    calLandUsed := t.calLandUsed
    calObservedYield := 0
    calls := calls }

/-- The first `passes` passes of the loop of `setCalLandValues`, whose counter
runs over `period .. period + n`. -/
def calProjection (mt : Modeltime) (t : ForestProductionTechnology) (calOutput : ℚ)
    (n : Int) (calls : List Call) (passes : Nat) : CalLoop :=
  let period := mt.getyr_to_per t.year
  let timestep := mt.gettimestep (mt.getyr_to_per t.year)
  calLoop (calLoopBody t calOutput timestep period n) (period + n) passes period
    (calLoopStart t calOutput calls)

/-- The number of steps the loop of `setCalLandValues` projects forward: the
value of `nRotPeriodSteps` after `if ( !mFutureProduction.isInited() )`. -/
def projectedSteps (mt : Modeltime) (t : ForestProductionTechnology) : Int :=
  if t.mFutureProduction.isSome then nRotPeriodSteps mt t else 0

/-- `ForestProductionTechnology::setCalLandValues`. The loop is given
`nRotPeriodSteps + 1` passes, the number of values of `i` in
`period .. period + nRotPeriodSteps`. -/
def setCalLandValues (env : Env) (w : World) : Except Failure World :=
  let t := w.tech
  let timestep := env.modeltime.gettimestep (env.modeltime.getyr_to_per t.year)
  if timestep = 0 then .error .divideByZero
  else
    match t.mCalValue with
    | none => .ok w
    | some calOutput =>
      if t.calYield ≠ -1 then
        let n := projectedSteps env.modeltime t
        let st := calProjection env.modeltime t calOutput n w.calls (n + 1).toNat
        .ok { w with
              tech := { t with calLandUsed := st.calLandUsed
                               calObservedYield := st.calObservedYield }
              calls := st.calls }
      else .ok w

/-- Periods of the `setCalLandAllocation` calls in a list of calls, in order. -/
def calLandAllocationPeriods (cs : List Call) : List Int :=
  cs.filterMap fun c => match c with
    | Call.setCalLandAllocation _ _ _ p _ => some p
    | _ => none

/-- Periods of the `setCalObservedYield` calls in a list of calls, in order. -/
def calObservedYieldPeriods (cs : List Call) : List Int :=
  cs.filterMap fun c => match c with
    | Call.setCalObservedYield _ _ _ p => some p
    | _ => none

/-- The list `i, i + 1, ...` of `k` consecutive periods. -/
def periodsList : Int → Nat → List Int
  | _, 0 => []
  | i, k + 1 => i :: periodsList (i + 1) k

/-- The periods `p, p + 1, ..., p + n` (none when `n < 0`). -/
def periodsFrom (p n : Int) : List Int :=
  periodsList p (n + 1).toNat

/-- The per-period sequence run by the solver: `calcCost` then `production`. -/
def calcCostThenProduction (env : Env) (w : World) (aRegionName aSectorName : String)
    (aVariableDemand aFixedOutputScaleFactor : ℚ) (aPeriod : Int) : Except Failure World :=
  match calcCost env w aRegionName aSectorName aPeriod with
  | .error e => .error e
  | .ok w1 =>
    production env w1 aRegionName aSectorName aVariableDemand aFixedOutputScaleFactor aPeriod

/-- The value computed by `calcDiscountFactor` for a positive rotation period. -/
def discountFactorValue (t : ForestProductionTechnology) : ℚ :=
  t.interestRate / ((1 + t.interestRate) ^ t.mRotationPeriod.toNat - 1)

/-- The calls sent by one run of `calcCost` then `production` while the
technology operates: the land bid, the yield request and the future supply. -/
def operatingCalls (env : Env) (t : ForestProductionTechnology)
    (aRegionName aSectorName : String) (aPeriod : Int) : List Call :=
  [Call.setIntrinsicRate aRegionName t.landType t.mName
     (env.baseProfitRate aRegionName (getFutureMarket aSectorName) aPeriod
       * discountFactorValue t) aPeriod,
   Call.calcYield t.landType t.mName aRegionName
     (env.baseProfitRate aRegionName (getFutureMarket aSectorName) aPeriod
       * discountFactorValue t)
     (aPeriod + nRotPeriodSteps env.modeltime t) aPeriod,
   Call.addToSupply (getFutureMarket aSectorName) aRegionName
     (env.calcSupply aRegionName aSectorName (aPeriod + nRotPeriodSteps env.modeltime t))
     aPeriod]

/-- The two calls sent by pass `k` (counted from 0) of the loop of
`setCalLandValues`: the land used and the yield of the pass, for the period `k`
steps after the planting period. -/
def passCalls (mt : Modeltime) (t : ForestProductionTechnology) (calOutput : ℚ)
    (n : Int) (calls : List Call) (k : Nat) : List Call :=
  [Call.setCalLandAllocation t.landType t.mName
     (calProjection mt t calOutput n calls (k + 1)).calLandUsed
     (mt.getyr_to_per t.year + k) (mt.getyr_to_per t.year),
   Call.setCalObservedYield t.landType t.mName
     (calProjection mt t calOutput n calls (k + 1)).calYieldTemp
     (mt.getyr_to_per t.year + k)]

/-- The calls sent by the first `passes` passes of the loop of
`setCalLandValues`, oldest first. -/
def writtenCalls (mt : Modeltime) (t : ForestProductionTechnology) (calOutput : ℚ)
    (n : Int) (calls : List Call) : Nat → List Call
  | 0 => []
  | passes + 1 =>
    writtenCalls mt t calOutput n calls passes ++ passCalls mt t calOutput n calls passes

/-! ## Concrete inputs used in the examples -/

/-- A model time with 15-year timesteps throughout; period 0 is 1975. -/
def modeltime15 : Modeltime :=
  { gettimestep := fun _ => 15
    getyr_to_per := fun y => (y - 1975).tdiv 15 }

/-- A model time whose timesteps shorten from 15 to 5 years after period 2. -/
def modeltimeMixed : Modeltime :=
  { gettimestep := fun p => if p ≤ 2 then 15 else 5
    getyr_to_per := fun y => if y ≤ 2005 then (y - 1975).tdiv 15 else 2 + (y - 2005).tdiv 5 }

/-- A forest technology planted in 1990 with the given rotation period, with
calibration data (output 10, yield 2) and a future production of 16. -/
def forest (rotationPeriod : Int) : ForestProductionTechnology :=
  { mName := "Forest"
    year := 1990
    landType := "ForestLand"
    interestRate := 2 / 100
    mRotationPeriod := rotationPeriod
    mFutureProduction := some 16
    mCalValue := some 10
    calYield := 2
    agProdChange := 0
    calObservedYield := 0
    calLandUsed := 0
    mCosts := fun _ => 0
    mInput := fun _ => 0
    physicalOutput := fun _ => 7 }

/-- Surroundings in which the technology operates in period 1 only, the future
product earns twice the profit rate of the product itself, supply is 4 and the
allocated land is 3. -/
def market15 : Env where
  modeltime := modeltime15
  isOperating := fun p => p == 1
  baseProfitRate := fun _ product _ => if product = "FutureLumber" then 2 else 1
  calcSupply := fun _ _ _ => 4
  getLandAllocation := fun _ _ _ => 3

/-- A world holding `forest rotationPeriod`, with no call made yet and an empty
marketplace. -/
def freshWorld (rotationPeriod : Int) : World :=
  { tech := forest rotationPeriod
    calls := []
    supply := fun _ _ _ => 0 }

/-- A forest technology planted in 1975 (period 0 of `modeltime15`) with a
rotation period of 45 years, calibration data (output 10, yield 2), a future
production of 16 and a productivity change of 1 percent a year. -/
def forest1975 : ForestProductionTechnology :=
  { forest 45 with year := 1975, agProdChange := 1 / 100 }

/-- A world holding `forest1975`, with no call made yet and an empty
marketplace. -/
def world1975 : World :=
  { tech := forest1975
    calls := []
    supply := fun _ _ _ => 0 }

/-! ## Auxiliary facts -/

/-- With a positive rotation period the assertion holds and `calcDiscountFactor`
returns its quotient, the power being over the years of the rotation period. -/
theorem calcDiscountFactor_of_pos (t : ForestProductionTechnology)
    (hrot : 0 < t.mRotationPeriod) :
    calcDiscountFactor t = .ok (discountFactorValue t) := by
  have hcast : ((t.mRotationPeriod.toNat : ℕ) : ℤ) = t.mRotationPeriod :=
    Int.toNat_of_nonneg hrot.le
  have hpow : pow (1 + t.interestRate) t.mRotationPeriod
      = (1 + t.interestRate) ^ t.mRotationPeriod.toNat := by
    unfold pow
    conv_lhs => rw [← hcast]
    exact zpow_natCast _ _
  simp [calcDiscountFactor, hrot, hpow, discountFactorValue]

/-- With a rotation period that is not positive `calcDiscountFactor` aborts on its
assertion. -/
theorem calcDiscountFactor_of_nonpos (t : ForestProductionTechnology)
    (hrot : t.mRotationPeriod ≤ 0) :
    calcDiscountFactor t = .error .assertion := by
  simp [calcDiscountFactor, not_lt.mpr hrot]

/-- With a positive rotation period `calcProfitRate` returns the parent profit rate
times the discount factor. -/
theorem calcProfitRate_of_pos (env : Env) (t : ForestProductionTechnology)
    (aRegionName aProductName : String) (aPeriod : Int) (hrot : 0 < t.mRotationPeriod) :
    calcProfitRate env t aRegionName aProductName aPeriod
      = .ok (env.baseProfitRate aRegionName aProductName aPeriod * discountFactorValue t) := by
  simp [calcProfitRate, calcDiscountFactor_of_pos t hrot]

/-- With a rotation period that is not positive `calcProfitRate` aborts on the
assertion of `calcDiscountFactor`. -/
theorem calcProfitRate_of_nonpos (env : Env) (t : ForestProductionTechnology)
    (aRegionName aProductName : String) (aPeriod : Int) (hrot : t.mRotationPeriod ≤ 0) :
    calcProfitRate env t aRegionName aProductName aPeriod = .error .assertion := by
  simp [calcProfitRate, calcDiscountFactor_of_nonpos t hrot]

/-- The world left by `calcCost` when the technology operates and the rotation
period is positive. -/
theorem calcCost_operating (env : Env) (w : World) (aRegionName aSectorName : String)
    (aPeriod : Int) (hstate : env.isOperating aPeriod = true)
    (hrot : 0 < w.tech.mRotationPeriod) :
    calcCost env w aRegionName aSectorName aPeriod
      = .ok { w with
              calls := w.calls ++
                [Call.setIntrinsicRate aRegionName w.tech.landType w.tech.mName
                  (env.baseProfitRate aRegionName (getFutureMarket aSectorName) aPeriod
                    * discountFactorValue w.tech) aPeriod]
              tech := { w.tech with mCosts := Function.update w.tech.mCosts aPeriod 1 } } := by
  simp [calcCost, hstate, calcProfitRate_of_pos env w.tech _ _ _ hrot]


/-- Members of `periodsList i k` are the periods from `i` up to, not including,
`i + k`. -/
theorem mem_periodsList (k : Nat) : ∀ (i x : Int),
    x ∈ periodsList i k ↔ i ≤ x ∧ x < i + k := by
  induction k with
  | zero => intro i x; simp [periodsList]
  | succ k ih =>
    intro i x
    simp only [periodsList, List.mem_cons, ih, Nat.cast_succ]
    constructor
    · rintro (h | ⟨h1, h2⟩) <;> omega
    · intro h
      by_cases hx : x = i
      · exact Or.inl hx
      · exact Or.inr (by omega)

/-- No period occurs twice in `periodsList i k`. -/
theorem nodup_periodsList (k : Nat) : ∀ i : Int, (periodsList i k).Nodup := by
  induction k with
  | zero => intro i; simp [periodsList]
  | succ k ih =>
    intro i
    simp only [periodsList, List.nodup_cons, mem_periodsList]
    exact ⟨by omega, ih (i + 1)⟩

/-- The list `periodsList i k` has `k` periods. -/
theorem length_periodsList (k : Nat) : ∀ i : Int, (periodsList i k).length = k := by
  induction k with
  | zero => intro i; rfl
  | succ k ih => intro i; simp [periodsList, ih]

/-- Members of `periodsFrom p n` are the periods from `p` to `p + n`. -/
theorem mem_periodsFrom (p n x : Int) : x ∈ periodsFrom p n ↔ p ≤ x ∧ x ≤ p + n := by
  unfold periodsFrom
  rw [mem_periodsList]
  constructor
  · rintro ⟨h1, h2⟩
    omega
  · rintro ⟨h1, h2⟩
    omega

/-- Moving the last pass of the loop out: when the counter stays within the
bound, `fuel + 1` passes are `fuel` passes followed by the body at `i + fuel`. -/
theorem calLoop_succ (body : Int → CalLoop → CalLoop) (last : Int) (fuel : Nat) :
    ∀ (i : Int) (st : CalLoop), i + fuel ≤ last →
      calLoop body last (fuel + 1) i st = body (i + fuel) (calLoop body last fuel i st) := by
  induction fuel with
  | zero =>
    intro i st h
    have hi : i ≤ last := by simpa using h
    simp [calLoop, hi]
  | succ fuel ih =>
    intro i st h
    have hi : i ≤ last := by push_cast at h; omega
    have hnext : i + 1 + (fuel : Int) ≤ last := by push_cast at h; omega
    have hidx : i + 1 + (fuel : Int) = i + ((fuel + 1 : Nat) : Int) := by push_cast; ring
    rw [calLoop, if_pos hi, ih (i + 1) (body i st) hnext, hidx]
    conv_rhs => rw [calLoop, if_pos hi]

/-- The loop stops by itself: once the counter is past the bound, further fuel
changes nothing. -/
theorem calLoop_past (body : Int → CalLoop → CalLoop) (last : Int) (fuel : Nat)
    (i : Int) (st : CalLoop) (h : last < i) : calLoop body last fuel i st = st := by
  cases fuel with
  | zero => rfl
  | succ fuel => simp [calLoop, not_le.mpr h]

/-- Fuel beyond the number of values of the counter is never used. -/
theorem calLoop_fuel (body : Int → CalLoop → CalLoop) (last : Int) (fuel : Nat) :
    ∀ (extra : Nat) (i : Int) (st : CalLoop), last + 1 ≤ i + fuel →
      calLoop body last (fuel + extra) i st = calLoop body last fuel i st := by
  induction fuel with
  | zero =>
    intro extra i st h
    have hi : last < i := by simpa using h
    rw [calLoop_past body last _ i st hi]
    rfl
  | succ fuel ih =>
    intro extra i st h
    have hnext : last + 1 ≤ i + 1 + (fuel : Int) := by push_cast at h; omega
    rw [show fuel + 1 + extra = (fuel + extra) + 1 by omega]
    simp only [calLoop]
    split
    · exact ih extra (i + 1) (body i st) hnext
    · rfl

/-- The two calls sent by one pass of the loop. -/
theorem calLoopBody_calls (t : ForestProductionTechnology) (calOutput : ℚ)
    (timestep period n i : Int) (st : CalLoop) :
    (calLoopBody t calOutput timestep period n i st).calls
      = st.calls ++
        [Call.setCalLandAllocation t.landType t.mName
           (calLoopBody t calOutput timestep period n i st).calLandUsed i period,
         Call.setCalObservedYield t.landType t.mName
           (calLoopBody t calOutput timestep period n i st).calYieldTemp i] := rfl

/-- Calls sent by the passes of the loop: two per pass, one
`setCalLandAllocation` and one `setCalObservedYield`, for consecutive periods. -/
theorem calLoop_calls (t : ForestProductionTechnology) (calOutput : ℚ)
    (timestep period n last : Int) (fuel : Nat) :
    ∀ (i : Int) (st : CalLoop), i + fuel ≤ last + 1 →
      ∃ cs, (calLoop (calLoopBody t calOutput timestep period n) last fuel i st).calls
              = st.calls ++ cs
        ∧ calLandAllocationPeriods cs = periodsList i fuel
        ∧ calObservedYieldPeriods cs = periodsList i fuel
        ∧ cs.length = 2 * fuel := by
  induction fuel with
  | zero =>
    intro i st _
    exact ⟨[], by simp [calLoop], rfl, rfl, rfl⟩
  | succ fuel ih =>
    intro i st h
    have hi : i ≤ last := by push_cast at h; omega
    have hnext : i + 1 + (fuel : Int) ≤ last + 1 := by push_cast at h; omega
    obtain ⟨cs, hcs, hland, hyield, hlen⟩ :=
      ih (i + 1) (calLoopBody t calOutput timestep period n i st) hnext
    refine ⟨Call.setCalLandAllocation t.landType t.mName
           (calLoopBody t calOutput timestep period n i st).calLandUsed i period ::
         Call.setCalObservedYield t.landType t.mName
           (calLoopBody t calOutput timestep period n i st).calYieldTemp i :: cs, ?_, ?_, ?_, ?_⟩
    · rw [calLoop, if_pos hi, hcs, calLoopBody_calls]
      simp
    · simp only [calLandAllocationPeriods, List.filterMap_cons, periodsList]
      exact congrArg _ hland
    · simp only [calObservedYieldPeriods, List.filterMap_cons, periodsList]
      exact congrArg _ hyield
    · simp [hlen]; ring

/-- Passes after the first leave `calObservedYield` alone. -/
theorem calLoop_observedYield (t : ForestProductionTechnology) (calOutput : ℚ)
    (timestep period n last : Int) (fuel : Nat) :
    ∀ (i : Int) (st : CalLoop), period < i →
      (calLoop (calLoopBody t calOutput timestep period n) last fuel i st).calObservedYield
        = st.calObservedYield := by
  induction fuel with
  | zero => intro i st _; rfl
  | succ fuel ih =>
    intro i st h
    simp only [calLoop]
    split
    · rw [ih (i + 1) _ (by omega)]
      simp [calLoopBody, ne_of_gt h]
    · rfl

/-- The world left by `setCalLandValues` when calibration data is present. -/
theorem setCalLandValues_calibrated (env : Env) (w : World) (calOutput : ℚ)
    (hcal : w.tech.mCalValue = some calOutput) (hyield : w.tech.calYield ≠ -1)
    (hstep : env.modeltime.gettimestep (env.modeltime.getyr_to_per w.tech.year) ≠ 0) :
    setCalLandValues env w
      = .ok { w with
              tech := { w.tech with
                        calLandUsed := (calProjection env.modeltime w.tech calOutput
                          (projectedSteps env.modeltime w.tech) w.calls
                          (projectedSteps env.modeltime w.tech + 1).toNat).calLandUsed
                        calObservedYield := (calProjection env.modeltime w.tech calOutput
                          (projectedSteps env.modeltime w.tech) w.calls
                          (projectedSteps env.modeltime w.tech + 1).toNat).calObservedYield }
              calls := (calProjection env.modeltime w.tech calOutput
                (projectedSteps env.modeltime w.tech) w.calls
                (projectedSteps env.modeltime w.tech + 1).toNat).calls } := by
  simp [setCalLandValues, hstep, hcal, hyield]

/-- Calls sent by a run of the calibration loop that stays within its bound. -/
theorem calProjection_calls (mt : Modeltime) (t : ForestProductionTechnology)
    (calOutput : ℚ) (n : Int) (calls : List Call) (passes : Nat)
    (h : 0 < passes → (passes : Int) ≤ n + 1) :
    ∃ cs, (calProjection mt t calOutput n calls passes).calls = calls ++ cs
      ∧ calLandAllocationPeriods cs = periodsList (mt.getyr_to_per t.year) passes
      ∧ calObservedYieldPeriods cs = periodsList (mt.getyr_to_per t.year) passes
      ∧ cs.length = 2 * passes := by
  rcases Nat.eq_zero_or_pos passes with hzero | hpos
  · subst hzero
    exact ⟨[], by simp [calProjection, calLoop, calLoopStart], rfl, rfl, rfl⟩
  have h := h hpos
  have hbound : mt.getyr_to_per t.year + (passes : Int) ≤ mt.getyr_to_per t.year + n + 1 := by
    omega
  exact calLoop_calls t calOutput _ _ n _ passes _ (calLoopStart t calOutput calls) hbound

/-- The passes given to the loop by `setCalLandValues` are all it can use: with
any more fuel the loop stops at the same state, its counter being past
`period + n`. -/
theorem calProjection_complete (mt : Modeltime) (t : ForestProductionTechnology)
    (calOutput : ℚ) (n : Int) (calls : List Call) (extra : Nat) :
    calProjection mt t calOutput n calls ((n + 1).toNat + extra)
      = calProjection mt t calOutput n calls (n + 1).toNat := by
  unfold calProjection
  exact calLoop_fuel _ _ _ extra _ _ (by omega)

/-- Pass `k` (counted from 0) of the calibration loop is the body at counter
`period + k` applied to the state left by the passes before it. -/
theorem calProjection_succ (mt : Modeltime) (t : ForestProductionTechnology)
    (calOutput : ℚ) (n : Int) (calls : List Call) (k : Nat) (h : (k : Int) ≤ n) :
    calProjection mt t calOutput n calls (k + 1)
      = calLoopBody t calOutput (mt.gettimestep (mt.getyr_to_per t.year))
          (mt.getyr_to_per t.year) n (mt.getyr_to_per t.year + k)
          (calProjection mt t calOutput n calls k) := by
  unfold calProjection
  exact calLoop_succ _ _ k _ _ (by omega)

/-- Production used by pass `k` of the calibration loop when a future
production is set: the calibrated output plus `k` equal increments. -/
theorem calProjection_production (mt : Modeltime) (t : ForestProductionTechnology)
    (calOutput target : ℚ) (n : Int) (calls : List Call)
    (htarget : t.mFutureProduction = some target) (k : Nat) (h : (k : Int) ≤ n) :
    (calProjection mt t calOutput n calls (k + 1)).calProductionTemp
      = calOutput + (k : ℚ) * ((target - calOutput) / (n : ℚ)) := by
  induction k with
  | zero =>
    rw [calProjection_succ mt t calOutput n calls 0 h]
    simp [calLoopBody, calProjection, calLoop, calLoopStart]
  | succ k ih =>
    have hk : (k : Int) ≤ n := by push_cast at h; omega
    rw [calProjection_succ mt t calOutput n calls (k + 1) h]
    have hgt : mt.getyr_to_per t.year + ((k + 1 : Nat) : Int) > mt.getyr_to_per t.year := by
      push_cast; omega
    simp only [calLoopBody, if_pos hgt, ih hk, htarget, Option.getD_some]
    push_cast
    ring

/-- Each pass of the calibration loop stores as land used the production of the
pass divided by its yield. -/
theorem calProjection_landUsed (mt : Modeltime) (t : ForestProductionTechnology)
    (calOutput : ℚ) (n : Int) (calls : List Call) (k : Nat) (h : (k : Int) ≤ n) :
    (calProjection mt t calOutput n calls (k + 1)).calLandUsed
      = (calProjection mt t calOutput n calls (k + 1)).calProductionTemp
        / (calProjection mt t calOutput n calls (k + 1)).calYieldTemp := by
  rw [calProjection_succ mt t calOutput n calls k h]
  rfl

/-- The first pass of the calibration loop: when the loop runs at all
(`0 ≤ n`) it leaves the calibrated yield in `calObservedYield` and its two calls
carry the calibrated output divided by the calibrated yield as land used and the
calibrated yield as yield. -/
theorem calProjection_first (mt : Modeltime) (t : ForestProductionTechnology)
    (calOutput : ℚ) (n : Int) (calls : List Call) (hn : 0 ≤ n) :
    (calProjection mt t calOutput n calls (n + 1).toNat).calObservedYield = t.calYield
    ∧ ∃ cs, (calProjection mt t calOutput n calls (n + 1).toNat).calls
        = calls ++
          (Call.setCalLandAllocation t.landType t.mName (calOutput / t.calYield)
              (mt.getyr_to_per t.year) (mt.getyr_to_per t.year) ::
            Call.setCalObservedYield t.landType t.mName t.calYield (mt.getyr_to_per t.year) ::
            cs) := by
  obtain ⟨m, hm⟩ : ∃ m : Nat, (n + 1).toNat = m + 1 := ⟨n.toNat, by omega⟩
  have hle : mt.getyr_to_per t.year ≤ mt.getyr_to_per t.year + n := by omega
  rw [hm]
  unfold calProjection
  simp only [calLoop, if_pos hle]
  constructor
  · rw [calLoop_observedYield t calOutput _ _ n _ m _ _ (by omega)]
    simp [calLoopBody, calLoopStart]
  · obtain ⟨cs, hcs, -⟩ := calLoop_calls t calOutput
      (mt.gettimestep (mt.getyr_to_per t.year)) (mt.getyr_to_per t.year) n
      (mt.getyr_to_per t.year + n) m (mt.getyr_to_per t.year + 1)
      (calLoopBody t calOutput (mt.gettimestep (mt.getyr_to_per t.year))
        (mt.getyr_to_per t.year) n (mt.getyr_to_per t.year) (calLoopStart t calOutput calls))
      (by omega)
    refine ⟨cs, ?_⟩
    rw [hcs]
    simp [calLoopBody, calLoopStart]

/-- The world left by `production` when the technology operates, the rotation
period is positive and the timestep of the planting period is not zero. -/
theorem production_operating (env : Env) (w : World) (aRegionName aSectorName : String)
    (aVariableDemand aFixedOutputScaleFactor : ℚ) (aPeriod : Int)
    (hstate : env.isOperating aPeriod = true) (hrot : 0 < w.tech.mRotationPeriod)
    (hstep : env.modeltime.gettimestep (env.modeltime.getyr_to_per w.tech.year) ≠ 0) :
    production env w aRegionName aSectorName aVariableDemand aFixedOutputScaleFactor aPeriod
      = .ok { tech := calcEmissionsAndOutputs
                { w.tech with
                  mInput := Function.update w.tech.mInput aPeriod
                    (env.getLandAllocation w.tech.landType w.tech.mName aPeriod) }
                (env.getLandAllocation w.tech.landType w.tech.mName aPeriod)
                (env.calcSupply aRegionName aSectorName aPeriod) aPeriod
              calls := w.calls ++
                [Call.calcYield w.tech.landType w.tech.mName aRegionName
                   (env.baseProfitRate aRegionName (getFutureMarket aSectorName) aPeriod
                     * discountFactorValue w.tech)
                   (aPeriod + nRotPeriodSteps env.modeltime w.tech) aPeriod,
                 Call.addToSupply (getFutureMarket aSectorName) aRegionName
                   (env.calcSupply aRegionName aSectorName
                     (aPeriod + nRotPeriodSteps env.modeltime w.tech)) aPeriod]
              supply := addToSupply w.supply (getFutureMarket aSectorName) aRegionName
                (env.calcSupply aRegionName aSectorName
                  (aPeriod + nRotPeriodSteps env.modeltime w.tech)) aPeriod } := by
  simp [production, hstate, calcProfitRate_of_pos env w.tech _ _ _ hrot, getHarvestPeriod,
    hstep, nRotPeriodSteps]

/-- With a rotation period that is not positive, an operating `calcCost` aborts
on the assertion. -/
theorem calcCost_assertion (env : Env) (w : World) (aRegionName aSectorName : String)
    (aPeriod : Int) (hstate : env.isOperating aPeriod = true)
    (hrot : w.tech.mRotationPeriod ≤ 0) :
    calcCost env w aRegionName aSectorName aPeriod = .error .assertion := by
  simp [calcCost, hstate, calcProfitRate_of_nonpos env w.tech _ _ _ hrot]

/-- With a rotation period that is not positive, an operating `production`
aborts on the assertion. -/
theorem production_assertion (env : Env) (w : World) (aRegionName aSectorName : String)
    (aVariableDemand aFixedOutputScaleFactor : ℚ) (aPeriod : Int)
    (hstate : env.isOperating aPeriod = true) (hrot : w.tech.mRotationPeriod ≤ 0) :
    production env w aRegionName aSectorName aVariableDemand aFixedOutputScaleFactor aPeriod
      = .error .assertion := by
  simp [production, hstate, calcProfitRate_of_nonpos env w.tech _ _ _ hrot]

/-- With a positive rotation period, an operating `production` does not abort
on the assertion (it returns, or stops on a zero timestep). -/
theorem production_no_assertion (env : Env) (w : World) (aRegionName aSectorName : String)
    (aVariableDemand aFixedOutputScaleFactor : ℚ) (aPeriod : Int)
    (hstate : env.isOperating aPeriod = true) (hrot : 0 < w.tech.mRotationPeriod) :
    production env w aRegionName aSectorName aVariableDemand aFixedOutputScaleFactor aPeriod
      ≠ .error .assertion := by
  by_cases hstep : env.modeltime.gettimestep (env.modeltime.getyr_to_per w.tech.year) = 0
  · simp [production, hstate, calcProfitRate_of_pos env w.tech _ _ _ hrot, getHarvestPeriod,
      hstep]
  · rw [production_operating env w _ _ _ _ _ hstate hrot hstep]
    simp

/-- The world left by `calcCost` then `production` when the technology is not
operating. -/
theorem calcCostThenProduction_idle (env : Env) (w : World)
    (aRegionName aSectorName : String) (aVariableDemand aFixedOutputScaleFactor : ℚ)
    (aPeriod : Int) (hstate : env.isOperating aPeriod = false) :
    calcCostThenProduction env w aRegionName aSectorName aVariableDemand
        aFixedOutputScaleFactor aPeriod
      = .ok { w with tech := setPhysicalOutput w.tech 0 aPeriod } := by
  simp [calcCostThenProduction, calcCost, production, hstate]

/-- The world left by `calcCost` then `production` when the technology operates,
the rotation period is positive and the timestep is not zero. -/
theorem calcCostThenProduction_operating (env : Env) (w : World)
    (aRegionName aSectorName : String) (aVariableDemand aFixedOutputScaleFactor : ℚ)
    (aPeriod : Int) (hstate : env.isOperating aPeriod = true)
    (hrot : 0 < w.tech.mRotationPeriod)
    (hstep : env.modeltime.gettimestep (env.modeltime.getyr_to_per w.tech.year) ≠ 0) :
    calcCostThenProduction env w aRegionName aSectorName aVariableDemand
        aFixedOutputScaleFactor aPeriod
      = .ok { tech := { w.tech with
                        mCosts := Function.update w.tech.mCosts aPeriod 1
                        mInput := Function.update w.tech.mInput aPeriod
                          (env.getLandAllocation w.tech.landType w.tech.mName aPeriod)
                        physicalOutput := Function.update w.tech.physicalOutput aPeriod
                          (env.calcSupply aRegionName aSectorName aPeriod) }
              calls := w.calls ++ operatingCalls env w.tech aRegionName aSectorName aPeriod
              supply := addToSupply w.supply (getFutureMarket aSectorName) aRegionName
                (env.calcSupply aRegionName aSectorName
                  (aPeriod + nRotPeriodSteps env.modeltime w.tech)) aPeriod } := by
  have hcost := calcCost_operating env w aRegionName aSectorName aPeriod hstate hrot
  have hprod := production_operating env
    { w with
      calls := w.calls ++
        [Call.setIntrinsicRate aRegionName w.tech.landType w.tech.mName
          (env.baseProfitRate aRegionName (getFutureMarket aSectorName) aPeriod
            * discountFactorValue w.tech) aPeriod]
      tech := { w.tech with mCosts := Function.update w.tech.mCosts aPeriod 1 } }
    aRegionName aSectorName aVariableDemand aFixedOutputScaleFactor aPeriod hstate hrot hstep
  unfold calcCostThenProduction
  rw [hcost]
  simp only []
  rw [hprod]
  simp [calcEmissionsAndOutputs, setPhysicalOutput, operatingCalls, discountFactorValue,
    nRotPeriodSteps]

/-- A run of `calcCost` then `production` that returns either found the
technology not operating, or found it operating with a positive rotation period
and a timestep that is not zero. -/
theorem calcCostThenProduction_returns (env : Env) (w w1 : World)
    (aRegionName aSectorName : String) (aVariableDemand aFixedOutputScaleFactor : ℚ)
    (aPeriod : Int)
    (h : calcCostThenProduction env w aRegionName aSectorName aVariableDemand
        aFixedOutputScaleFactor aPeriod = .ok w1) :
    env.isOperating aPeriod = false
    ∨ (env.isOperating aPeriod = true ∧ 0 < w.tech.mRotationPeriod
        ∧ env.modeltime.gettimestep (env.modeltime.getyr_to_per w.tech.year) ≠ 0) := by
  cases hstate : env.isOperating aPeriod with
  | false => exact Or.inl rfl
  | true =>
    refine Or.inr ⟨rfl, ?_, ?_⟩
    · by_contra hrot
      simp [calcCostThenProduction, calcCost_assertion env w _ _ _ hstate (not_lt.mp hrot)] at h
    · intro hstep
      have hrot : 0 < w.tech.mRotationPeriod := by
        by_contra hrot
        simp [calcCostThenProduction, calcCost_assertion env w _ _ _ hstate (not_lt.mp hrot)] at h
      have hprofit := calcProfitRate_of_pos env
        { w.tech with mCosts := Function.update w.tech.mCosts aPeriod 1 }
        aRegionName (getFutureMarket aSectorName) aPeriod hrot
      simp [calcCostThenProduction, calcCost_operating env w _ _ _ hstate hrot, production,
        hstate, hprofit, getHarvestPeriod, hstep] at h

/-- The calls of the passes of the calibration loop, as long as the counter
stays within its bound, are the calls made before followed by `writtenCalls`. -/
theorem calProjection_written (mt : Modeltime) (t : ForestProductionTechnology)
    (calOutput : ℚ) (n : Int) (calls : List Call) (passes : Nat)
    (h : (passes : Int) ≤ n + 1) :
    (calProjection mt t calOutput n calls passes).calls
      = calls ++ writtenCalls mt t calOutput n calls passes := by
  induction passes with
  | zero => simp [calProjection, calLoop, calLoopStart, writtenCalls]
  | succ m ih =>
    have hm : (m : Int) ≤ n := by push_cast at h; omega
    have hsucc := calProjection_succ mt t calOutput n calls m hm
    have hcalls : (calProjection mt t calOutput n calls (m + 1)).calls
        = (calProjection mt t calOutput n calls m).calls
          ++ passCalls mt t calOutput n calls m := by
      unfold passCalls
      rw [hsucc]
      exact calLoopBody_calls _ _ _ _ _ _ _
    rw [hcalls, ih (by omega), writtenCalls, List.append_assoc]

/-- A call is among `writtenCalls` exactly when some pass sent it. -/
theorem mem_writtenCalls (mt : Modeltime) (t : ForestProductionTechnology)
    (calOutput : ℚ) (n : Int) (calls : List Call) (c : Call) (passes : Nat) :
    c ∈ writtenCalls mt t calOutput n calls passes
      ↔ ∃ k, k < passes ∧ c ∈ passCalls mt t calOutput n calls k := by
  induction passes with
  | zero => simp [writtenCalls]
  | succ m ih =>
    rw [writtenCalls, List.mem_append, ih]
    constructor
    · rintro (⟨k, hk, hc⟩ | hc)
      · exact ⟨k, by omega, hc⟩
      · exact ⟨m, by omega, hc⟩
    · rintro ⟨k, hk, hc⟩
      by_cases hkm : k = m
      · subst hkm
        exact Or.inr hc
      · exact Or.inl ⟨k, by omega, hc⟩

/-- The yield written for the period `k` steps after the planting period is the
yield of pass `k`, and no other. -/
theorem written_yield_iff (mt : Modeltime) (t : ForestProductionTechnology)
    (calOutput : ℚ) (n : Int) (calls : List Call) (passes k : Nat) (hk : k < passes)
    (y : ℚ) :
    Call.setCalObservedYield t.landType t.mName y (mt.getyr_to_per t.year + k)
        ∈ writtenCalls mt t calOutput n calls passes
      ↔ y = (calProjection mt t calOutput n calls (k + 1)).calYieldTemp := by
  rw [mem_writtenCalls]
  constructor
  · rintro ⟨j, _, hc⟩
    simp only [passCalls, List.mem_cons, List.mem_singleton, Call.setCalObservedYield.injEq,
      List.not_mem_nil, or_false, false_or, reduceCtorEq] at hc
    obtain ⟨-, -, hy, hp⟩ := hc
    have hjk : k = j := by omega
    subst hjk
    exact hy
  · rintro rfl
    exact ⟨k, hk, by simp [passCalls]⟩

/-- The land used written for the period `k` steps after the planting period is
the land used of pass `k`, with the planting period as base period, and no
other. -/
theorem written_landUsed_iff (mt : Modeltime) (t : ForestProductionTechnology)
    (calOutput : ℚ) (n : Int) (calls : List Call) (passes k : Nat) (hk : k < passes)
    (l : ℚ) (b : Int) :
    Call.setCalLandAllocation t.landType t.mName l (mt.getyr_to_per t.year + k) b
        ∈ writtenCalls mt t calOutput n calls passes
      ↔ l = (calProjection mt t calOutput n calls (k + 1)).calLandUsed
        ∧ b = mt.getyr_to_per t.year := by
  rw [mem_writtenCalls]
  constructor
  · rintro ⟨j, _, hc⟩
    simp only [passCalls, List.mem_cons, List.mem_singleton, Call.setCalLandAllocation.injEq,
      List.not_mem_nil, or_false, reduceCtorEq] at hc
    obtain ⟨-, -, hl, hp, hb⟩ := hc
    have hjk : k = j := by omega
    subst hjk
    exact ⟨hl, hb⟩
  · rintro ⟨rfl, rfl⟩
    exact ⟨k, hk, by simp [passCalls]⟩

/-- Yield used by a pass after the first: the calibrated yield times the
productivity factor raised to the timestep times the counter of the pass less
one, the counter being the number of the period. -/
theorem calProjection_yield (mt : Modeltime) (t : ForestProductionTechnology)
    (calOutput : ℚ) (n : Int) (calls : List Call) (k : Nat) (hpos : 1 ≤ k)
    (h : (k : Int) ≤ n) :
    (calProjection mt t calOutput n calls (k + 1)).calYieldTemp
      = t.calYield * (1 + t.agProdChange)
          ^ (mt.gettimestep (mt.getyr_to_per t.year) * (mt.getyr_to_per t.year + k - 1)) := by
  rw [calProjection_succ mt t calOutput n calls k h]
  have hgt : mt.getyr_to_per t.year + (k : Int) > mt.getyr_to_per t.year := by omega
  simp only [calLoopBody, if_pos hgt, pow]

/-! ## Production state: not operating -/

/-- C1: when the production state of the period is not operating, `production`
returns having stored 0 as the physical output of the period, with no call made
to the land allocator or the marketplace (so no `calcYield`, no `addToSupply`)
and the supply untouched, and `calcCost` returns the world as it was (no
`setIntrinsicRate`, stored costs unchanged), whatever the profit rate, the
rotation period and the rest of the state. -/
theorem not_operating_forces_zero_output (env : Env) (w : World)
    (aRegionName aSectorName : String) (aVariableDemand aFixedOutputScaleFactor : ℚ)
    (aPeriod : Int) (hstate : env.isOperating aPeriod = false) :
    (∃ w1, production env w aRegionName aSectorName aVariableDemand
          aFixedOutputScaleFactor aPeriod = .ok w1
        ∧ w1.tech.physicalOutput aPeriod = 0
        ∧ w1.calls = w.calls
        ∧ w1.supply = w.supply
        ∧ w1.tech.mCosts = w.tech.mCosts)
      ∧ calcCost env w aRegionName aSectorName aPeriod = .ok w := by
  refine ⟨⟨{ w with tech := setPhysicalOutput w.tech 0 aPeriod }, ?_, ?_, rfl, rfl, rfl⟩, ?_⟩
  · simp [production, hstate]
  · simp [setPhysicalOutput]
  · simp [calcCost, hstate]

/-- Witness for C1: period 2 of `market15`, where the technology is not
operating and the profit rate is positive. -/
theorem not_operating_forces_zero_output_witness :
    market15.isOperating 2 = false ∧
    ((∃ w1, production market15 (freshWorld 45) "USA" "Lumber" 0 0 2 = .ok w1
        ∧ w1.tech.physicalOutput 2 = 0
        ∧ w1.calls = (freshWorld 45).calls
        ∧ w1.supply = (freshWorld 45).supply
        ∧ w1.tech.mCosts = (freshWorld 45).tech.mCosts)
      ∧ calcCost market15 (freshWorld 45) "USA" "Lumber" 2 = .ok (freshWorld 45)) :=
  ⟨by decide, not_operating_forces_zero_output market15 (freshWorld 45) "USA" "Lumber" 0 0 2
    (by decide)⟩

/-! ## Discount factor -/

/-- Counterexample to C2 as stated: with an interest rate of 0.02, a rotation
period of 90 years and 15-year timesteps the number of steps is 6 > 0, and
`calcDiscountFactor` returns `0.02 / (1.02^90 - 1)`, which is not
`0.02 / (1.02^6 - 1)`. -/
theorem discount_factor_not_in_steps :
    0 < nRotPeriodSteps modeltime15 (forest 90)
    ∧ calcDiscountFactor (forest 90)
        = .ok ((2 / 100 : ℚ) / ((1 + 2 / 100 : ℚ) ^ (90 : ℕ) - 1))
    ∧ calcDiscountFactor (forest 90)
        ≠ .ok ((forest 90).interestRate /
            (pow (1 + (forest 90).interestRate) (nRotPeriodSteps modeltime15 (forest 90)) - 1)) := by
  have hsteps : nRotPeriodSteps modeltime15 (forest 90) = 6 := by decide
  refine ⟨by decide, ?_, ?_⟩
  · simp [calcDiscountFactor, forest, pow]
    norm_num
  · rw [hsteps]
    simp [calcDiscountFactor, forest, pow]
    norm_num

/-- C2 (amended): for every interest rate and every rotation period of more
than 0 years, `calcDiscountFactor` returns
`interestRate / ((1 + interestRate)^mRotationPeriod - 1)`, the exponent being
the rotation period in years, whatever the timestep. -/
theorem discount_factor_in_years (t : ForestProductionTechnology)
    (hrot : 0 < t.mRotationPeriod) :
    calcDiscountFactor t
      = .ok (t.interestRate / ((1 + t.interestRate) ^ t.mRotationPeriod.toNat - 1)) :=
  calcDiscountFactor_of_pos t hrot

/-- Witness for C2 (amended): an interest rate of 0.02 and a rotation period of
6 years give `0.02 / (1.02^6 - 1)`. -/
theorem discount_factor_in_years_witness :
    0 < (forest 6).mRotationPeriod
    ∧ calcDiscountFactor (forest 6)
        = .ok ((2 / 100 : ℚ) / ((1 + 2 / 100 : ℚ) ^ (6 : ℕ) - 1)) :=
  ⟨by decide, discount_factor_in_years (forest 6) (by decide)⟩

/-! ## Harvest period -/

/-- C3 (defect of the code): the code at an input where it departs from the
claim. A technology planted in 1990 (period 1, a 15-year timestep) with a
rotation period of 45 years is asked at period 5, whose own timestep is 5
years. A crop planted in period 5 is harvested 45 / 5 = 9 periods later, in
period 14, as C3 and the description of `getHarvestPeriod` say; the code
divides by the timestep of the technology year instead and returns
`5 + 45 / 15 = 8`. -/
theorem harvest_period_not_current_timestep :
    modeltimeMixed.gettimestep 5 = 5
    ∧ getHarvestPeriod modeltimeMixed (forest 45) 5 = .ok 8
    ∧ getHarvestPeriod modeltimeMixed (forest 45) 5
        ≠ .ok (5 + (forest 45).mRotationPeriod.tdiv (modeltimeMixed.gettimestep 5)) := by
  refine ⟨by decide, ?_, ?_⟩ <;> simp [getHarvestPeriod, modeltimeMixed, forest] <;> decide

/-- What `getHarvestPeriod( p )` computes: `p + mRotationPeriod / timestep` with
truncating integer division, the timestep being that of the period of the
technology year; this is the harvest period over the timestep of `p` whenever
`p` has a timestep of the same length. -/
theorem harvest_period_uses_technology_timestep (mt : Modeltime)
    (t : ForestProductionTechnology) (aCurrentPeriod : Int)
    (hstep : mt.gettimestep (mt.getyr_to_per t.year) ≠ 0) :
    getHarvestPeriod mt t aCurrentPeriod
        = .ok (aCurrentPeriod + t.mRotationPeriod.tdiv (mt.gettimestep (mt.getyr_to_per t.year)))
    ∧ (mt.gettimestep aCurrentPeriod = mt.gettimestep (mt.getyr_to_per t.year) →
        getHarvestPeriod mt t aCurrentPeriod
          = .ok (aCurrentPeriod + t.mRotationPeriod.tdiv (mt.gettimestep aCurrentPeriod))) := by
  have hmain : getHarvestPeriod mt t aCurrentPeriod
      = .ok (aCurrentPeriod + t.mRotationPeriod.tdiv (mt.gettimestep (mt.getyr_to_per t.year))) := by
    simp [getHarvestPeriod, hstep]
  exact ⟨hmain, fun hsame => by rw [hsame]; exact hmain⟩

/-- A rotation period of 45 years and 15-year timesteps throughout give
`getHarvestPeriod( 5 ) = 5 + 45 / 15 = 8`, the harvest period over the timestep
of period 5. -/
theorem harvest_period_uses_technology_timestep_witness :
    modeltime15.gettimestep (modeltime15.getyr_to_per (forest 45).year) ≠ 0
    ∧ getHarvestPeriod modeltime15 (forest 45) 5 = .ok 8 :=
  ⟨by decide,
   (harvest_period_uses_technology_timestep modeltime15 (forest 45) 5 (by decide)).1⟩

/-- With timesteps of one constant length, as the warning on `completeInit`
assumes, `getHarvestPeriod( p )` is `p + mRotationPeriod / timestep( p )` for
every period `p`: the harvest period over the timestep of the current period. -/
theorem harvest_period_constant_timestep (mt : Modeltime)
    (t : ForestProductionTechnology) (aCurrentPeriod timestep : Int)
    (hconst : ∀ q, mt.gettimestep q = timestep) (hstep : timestep ≠ 0) :
    getHarvestPeriod mt t aCurrentPeriod
      = .ok (aCurrentPeriod + t.mRotationPeriod.tdiv (mt.gettimestep aCurrentPeriod)) := by
  simp [getHarvestPeriod, hconst, hstep]

/-! ## Land bid -/

/-- Counterexample to C4 as stated: in `market15` the product "Lumber" earns a
base profit rate of 1 and "FutureLumber" one of 2. At period 1 `calcCost` for
sector "Lumber" bids the base profit rate of "FutureLumber" times the discount
factor, and not the base profit rate of "Lumber" times the discount factor
(neither with the discount factor the code computes, over 45 years, nor with
one over the 3 rotation steps). -/
theorem land_bid_not_from_sector_price :
    market15.isOperating 1 = true
    ∧ calcDiscountFactor (freshWorld 45).tech
        = .ok ((2 / 100 : ℚ) / ((1 + 2 / 100 : ℚ) ^ (45 : ℕ) - 1))
    ∧ ∃ w1, calcCost market15 (freshWorld 45) "USA" "Lumber" 1 = .ok w1
        ∧ w1.calls = [Call.setIntrinsicRate "USA" "ForestLand" "Forest"
            (market15.baseProfitRate "USA" "FutureLumber" 1 *
              ((2 / 100 : ℚ) / ((1 + 2 / 100 : ℚ) ^ (45 : ℕ) - 1))) 1]
        ∧ w1.calls ≠ [Call.setIntrinsicRate "USA" "ForestLand" "Forest"
            (market15.baseProfitRate "USA" "Lumber" 1 *
              ((2 / 100 : ℚ) / ((1 + 2 / 100 : ℚ) ^ (45 : ℕ) - 1))) 1]
        ∧ w1.calls ≠ [Call.setIntrinsicRate "USA" "ForestLand" "Forest"
            (market15.baseProfitRate "USA" "Lumber" 1 *
              ((2 / 100 : ℚ) / ((1 + 2 / 100 : ℚ) ^ (3 : ℕ) - 1))) 1] := by
  refine ⟨by decide, calcDiscountFactor_of_pos _ (by decide), _,
    calcCost_operating market15 (freshWorld 45) "USA" "Lumber" 1 (by decide) (by decide),
    ?_, ?_, ?_⟩
  · simp [freshWorld, forest, market15, getFutureMarket, discountFactorValue]
  · simp [freshWorld, forest, market15, getFutureMarket, discountFactorValue]
    norm_num
  · simp [freshWorld, forest, market15, getFutureMarket, discountFactorValue]
    norm_num

/-- C4 (amended): for every region, sector name and period at which the
technology is operating, and a positive rotation period, `calcCost` returns
having sent exactly one call, a `setIntrinsicRate` for this region, land type,
technology name and period, whose rate is the base profit rate of the future
product `getFutureMarket( aSectorName )` (not of the sector itself) times the
value of `calcDiscountFactor`. -/
theorem land_bid_from_future_price (env : Env) (w : World)
    (aRegionName aSectorName : String) (aPeriod : Int)
    (hstate : env.isOperating aPeriod = true) (hrot : 0 < w.tech.mRotationPeriod) :
    ∃ w1 discountFactor,
      calcDiscountFactor w.tech = .ok discountFactor
      ∧ calcCost env w aRegionName aSectorName aPeriod = .ok w1
      ∧ w1.calls = w.calls ++
          [Call.setIntrinsicRate aRegionName w.tech.landType w.tech.mName
            (env.baseProfitRate aRegionName ("Future" ++ aSectorName) aPeriod * discountFactor)
            aPeriod] :=
  ⟨_, _, calcDiscountFactor_of_pos w.tech hrot,
    calcCost_operating env w aRegionName aSectorName aPeriod hstate hrot, rfl⟩

/-- Witness for C4 (amended): sector "Lumber" at period 1 of `market15`. -/
theorem land_bid_from_future_price_witness :
    market15.isOperating 1 = true ∧ 0 < (freshWorld 45).tech.mRotationPeriod
    ∧ ∃ w1 discountFactor,
      calcDiscountFactor (freshWorld 45).tech = .ok discountFactor
      ∧ calcCost market15 (freshWorld 45) "USA" "Lumber" 1 = .ok w1
      ∧ w1.calls = (freshWorld 45).calls ++
          [Call.setIntrinsicRate "USA" (freshWorld 45).tech.landType (freshWorld 45).tech.mName
            (market15.baseProfitRate "USA" ("Future" ++ "Lumber") 1 * discountFactor) 1] :=
  ⟨by decide, by decide,
    land_bid_from_future_price market15 (freshWorld 45) "USA" "Lumber" 1 (by decide) (by decide)⟩

/-! ## Calibrated periods -/

/-- C5: when a calibrated output and a calibrated yield other than -1 are
present (and the timestep of the planting period is not zero),
`setCalLandValues` returns having sent, after the calls already made, one
`setCalLandAllocation` and one `setCalObservedYield` for each of the periods
`p, p + 1, ..., p + n` in this order, once each, and nothing else, where `p` is
the period of the technology year and `n` is `mRotationPeriod / timestep` when
`mFutureProduction` is set and 0 when it is not; with `mFutureProduction`
unset the only period is `p`. -/
theorem calibration_covers_rotation (env : Env) (w : World) (calOutput : ℚ)
    (hcal : w.tech.mCalValue = some calOutput) (hyield : w.tech.calYield ≠ -1)
    (hstep : env.modeltime.gettimestep (env.modeltime.getyr_to_per w.tech.year) ≠ 0) :
    ∃ w1 cs, setCalLandValues env w = .ok w1
      ∧ w1.calls = w.calls ++ cs
      ∧ calLandAllocationPeriods cs
          = periodsFrom (env.modeltime.getyr_to_per w.tech.year)
              (if w.tech.mFutureProduction.isSome then
                w.tech.mRotationPeriod.tdiv
                  (env.modeltime.gettimestep (env.modeltime.getyr_to_per w.tech.year))
               else 0)
      ∧ calObservedYieldPeriods cs = calLandAllocationPeriods cs
      ∧ cs.length = 2 * (calLandAllocationPeriods cs).length
      ∧ (calLandAllocationPeriods cs).Nodup
      ∧ (∀ x, x ∈ calLandAllocationPeriods cs ↔
          env.modeltime.getyr_to_per w.tech.year ≤ x
          ∧ x ≤ env.modeltime.getyr_to_per w.tech.year +
              (if w.tech.mFutureProduction.isSome then
                w.tech.mRotationPeriod.tdiv
                  (env.modeltime.gettimestep (env.modeltime.getyr_to_per w.tech.year))
               else 0))
      ∧ (w.tech.mFutureProduction = none →
          calLandAllocationPeriods cs = [env.modeltime.getyr_to_per w.tech.year]) := by
  obtain ⟨cs, hcs, hland, hobs, hlen⟩ :=
    calProjection_calls env.modeltime w.tech calOutput (projectedSteps env.modeltime w.tech)
      w.calls (projectedSteps env.modeltime w.tech + 1).toNat (by omega)
  have hfrom : calLandAllocationPeriods cs
      = periodsFrom (env.modeltime.getyr_to_per w.tech.year)
          (if w.tech.mFutureProduction.isSome then
            w.tech.mRotationPeriod.tdiv
              (env.modeltime.gettimestep (env.modeltime.getyr_to_per w.tech.year))
           else 0) := hland
  refine ⟨_, cs, setCalLandValues_calibrated env w calOutput hcal hyield hstep, hcs, hfrom,
    hobs.trans hland.symm, ?_, ?_, ?_, ?_⟩
  · rw [hland, length_periodsList, hlen]
  · rw [hland]
    exact nodup_periodsList _ _
  · intro x
    rw [hfrom]
    exact mem_periodsFrom _ _ x
  · intro hnone
    rw [hfrom, hnone]
    rfl

/-- Witness for C5: the technology `forest 45` in 15-year timesteps. -/
theorem calibration_covers_rotation_witness :
    (freshWorld 45).tech.mCalValue = some 10 ∧ (freshWorld 45).tech.calYield ≠ -1
    ∧ market15.modeltime.gettimestep (market15.modeltime.getyr_to_per (freshWorld 45).tech.year) ≠ 0
    ∧ ∃ w1 cs, setCalLandValues market15 (freshWorld 45) = .ok w1
      ∧ w1.calls = (freshWorld 45).calls ++ cs
      ∧ calLandAllocationPeriods cs
          = periodsFrom (market15.modeltime.getyr_to_per (freshWorld 45).tech.year)
              (if (freshWorld 45).tech.mFutureProduction.isSome then
                (freshWorld 45).tech.mRotationPeriod.tdiv
                  (market15.modeltime.gettimestep
                    (market15.modeltime.getyr_to_per (freshWorld 45).tech.year))
               else 0)
      ∧ calObservedYieldPeriods cs = calLandAllocationPeriods cs
      ∧ cs.length = 2 * (calLandAllocationPeriods cs).length
      ∧ (calLandAllocationPeriods cs).Nodup
      ∧ (∀ x, x ∈ calLandAllocationPeriods cs ↔
          market15.modeltime.getyr_to_per (freshWorld 45).tech.year ≤ x
          ∧ x ≤ market15.modeltime.getyr_to_per (freshWorld 45).tech.year +
              (if (freshWorld 45).tech.mFutureProduction.isSome then
                (freshWorld 45).tech.mRotationPeriod.tdiv
                  (market15.modeltime.gettimestep
                    (market15.modeltime.getyr_to_per (freshWorld 45).tech.year))
               else 0))
      ∧ ((freshWorld 45).tech.mFutureProduction = none →
          calLandAllocationPeriods cs
            = [market15.modeltime.getyr_to_per (freshWorld 45).tech.year]) :=
  ⟨rfl, by simp [freshWorld, forest]; norm_num, by decide,
    calibration_covers_rotation market15 (freshWorld 45) 10 rfl
      (by simp [freshWorld, forest]; norm_num) (by decide)⟩

/-! ## Interpolation of production -/

/-- C6: with calibration data present, `mFutureProduction` set to a target
above the calibrated output and `n = mRotationPeriod / timestep >= 1`,
`setCalLandValues` returns after `n + 1` passes of its loop, and over exact
arithmetic the production used by pass `k` (`k = 0 .. n`, the value of
`calProductionTemp` from which the land used of the pass is computed) is
`calOutput + k * (target - calOutput) / n`; it is strictly increasing in `k`,
never exceeds the target and equals the target at the last pass. -/
theorem production_interpolates_to_target (env : Env) (w : World)
    (calOutput target : ℚ) (n : Nat)
    (hcal : w.tech.mCalValue = some calOutput) (hyield : w.tech.calYield ≠ -1)
    (htarget : w.tech.mFutureProduction = some target)
    (hstep : env.modeltime.gettimestep (env.modeltime.getyr_to_per w.tech.year) ≠ 0)
    (hn : w.tech.mRotationPeriod.tdiv
        (env.modeltime.gettimestep (env.modeltime.getyr_to_per w.tech.year)) = (n : Int))
    (hpos : 1 ≤ n) (hlt : calOutput < target) :
    (∃ w1, setCalLandValues env w = .ok w1
        ∧ w1.calls = (calProjection env.modeltime w.tech calOutput n w.calls (n + 1)).calls)
    ∧ (∀ k : Nat, k ≤ n →
        (calProjection env.modeltime w.tech calOutput n w.calls (k + 1)).calProductionTemp
          = calOutput + (k : ℚ) * (target - calOutput) / (n : ℚ))
    ∧ (∀ j k : Nat, j < k → k ≤ n →
        (calProjection env.modeltime w.tech calOutput n w.calls (j + 1)).calProductionTemp
          < (calProjection env.modeltime w.tech calOutput n w.calls (k + 1)).calProductionTemp)
    ∧ (∀ k : Nat, k ≤ n →
        (calProjection env.modeltime w.tech calOutput n w.calls (k + 1)).calProductionTemp
          ≤ target)
    ∧ (calProjection env.modeltime w.tech calOutput n w.calls (n + 1)).calProductionTemp
        = target
    ∧ (∀ k : Nat, k ≤ n →
        (calProjection env.modeltime w.tech calOutput n w.calls (k + 1)).calLandUsed
          = (calProjection env.modeltime w.tech calOutput n w.calls (k + 1)).calProductionTemp
            / (calProjection env.modeltime w.tech calOutput n w.calls (k + 1)).calYieldTemp) := by
  have hnQ : (0 : ℚ) < (n : ℚ) := by exact_mod_cast hpos
  have hinc : 0 < (target - calOutput) / (n : ℚ) := div_pos (sub_pos.mpr hlt) hnQ
  have hprod : ∀ k : Nat, k ≤ n →
      (calProjection env.modeltime w.tech calOutput n w.calls (k + 1)).calProductionTemp
        = calOutput + (k : ℚ) * ((target - calOutput) / (n : ℚ)) := fun k hk => by
    have := calProjection_production env.modeltime w.tech calOutput target n w.calls htarget k
      (by exact_mod_cast hk)
    simpa using this
  have hsteps : projectedSteps env.modeltime w.tech = (n : Int) := by
    simp [projectedSteps, htarget, nRotPeriodSteps, hn]
  refine ⟨⟨_, setCalLandValues_calibrated env w calOutput hcal hyield hstep, ?_⟩, ?_, ?_, ?_, ?_, ?_⟩
  · simp only [hsteps]
    rfl
  · intro k hk
    rw [hprod k hk, mul_div_assoc]
  · intro j k hjk hk
    rw [hprod j (by omega), hprod k hk]
    have hjkQ : (j : ℚ) < (k : ℚ) := by exact_mod_cast hjk
    have := mul_lt_mul_of_pos_right hjkQ hinc
    linarith
  · intro k hk
    rw [hprod k hk]
    have hkQ : (k : ℚ) ≤ (n : ℚ) := by exact_mod_cast hk
    have h1 : (k : ℚ) * ((target - calOutput) / (n : ℚ))
        ≤ (n : ℚ) * ((target - calOutput) / (n : ℚ)) :=
      mul_le_mul_of_nonneg_right hkQ hinc.le
    have h2 : (n : ℚ) * ((target - calOutput) / (n : ℚ)) = target - calOutput := by
      field_simp
    linarith
  · rw [hprod n le_rfl]
    have h2 : (n : ℚ) * ((target - calOutput) / (n : ℚ)) = target - calOutput := by
      field_simp
    linarith
  · intro k hk
    exact calProjection_landUsed env.modeltime w.tech calOutput n w.calls k
      (by exact_mod_cast hk)

/-- Witness for C6: the technology `forest 45` in 15-year timesteps, a rotation of
3 steps from a calibrated output of 10 to a future production of 16: pass 1 uses
`10 + 1 * (16 - 10) / 3` and the last pass uses 16. -/
theorem production_interpolates_to_target_witness :
    (freshWorld 45).tech.mRotationPeriod.tdiv
        (market15.modeltime.gettimestep
          (market15.modeltime.getyr_to_per (freshWorld 45).tech.year)) = ((3 : Nat) : Int)
    ∧ (10 : ℚ) < 16
    ∧ (calProjection market15.modeltime (freshWorld 45).tech 10 (3 : Nat)
        (freshWorld 45).calls (1 + 1)).calProductionTemp
        = 10 + ((1 : Nat) : ℚ) * (16 - 10) / ((3 : Nat) : ℚ)
    ∧ (calProjection market15.modeltime (freshWorld 45).tech 10 (3 : Nat)
        (freshWorld 45).calls (3 + 1)).calProductionTemp = 16 :=
  ⟨by decide, by norm_num,
    (production_interpolates_to_target market15 (freshWorld 45) 10 16 3 rfl
      (by simp [freshWorld, forest]; norm_num) rfl (by decide) (by decide) (by decide)
      (by norm_num)).2.1 1 (by decide),
    (production_interpolates_to_target market15 (freshWorld 45) 10 16 3 rfl
      (by simp [freshWorld, forest]; norm_num) rfl (by decide) (by decide) (by decide)
      (by norm_num)).2.2.2.2.1⟩

/-! ## Repeated runs within a period -/

/-- Counterexample to C7 as stated: at period 1 of `market15` one run of
`calcCost` then `production` leaves a supply of 4 for "FutureLumber", and a
second run with the same inputs leaves 8: the world after the second run is not
the world after the first. -/
theorem second_run_doubles_future_supply :
    ∃ w1 w2, calcCostThenProduction market15 (freshWorld 45) "USA" "Lumber" 0 0 1 = .ok w1
      ∧ calcCostThenProduction market15 w1 "USA" "Lumber" 0 0 1 = .ok w2
      ∧ w1.supply "FutureLumber" "USA" 1 = 4
      ∧ w2.supply "FutureLumber" "USA" 1 = 8
      ∧ w2 ≠ w1 := by
  have h1 := calcCostThenProduction_operating market15 (freshWorld 45) "USA" "Lumber" 0 0 1
    (by decide) (by decide) (by decide)
  refine ⟨_, _, h1, calcCostThenProduction_operating market15 _ "USA" "Lumber" 0 0 1
    (by decide) (by decide) (by decide), ?_, ?_, ?_⟩
  · simp [addToSupply, getFutureMarket, freshWorld, market15]
  · simp [addToSupply, getFutureMarket, freshWorld, market15]
    norm_num
  · intro heq
    have hsup := congrArg (fun x : World => x.supply "FutureLumber" "USA" 1) heq
    simp [addToSupply, getFutureMarket, freshWorld, market15] at hsup

/-- C7 (amended): when one run of `calcCost` then `production` returns, a second
run from the world it left, with the same surroundings, returns as well; it
leaves the technology (stored cost, input, physical output) exactly as the first
run left it and sends the same calls with the same arguments (the same land bid,
the same yield request, the same future supply). The marketplace is not left as
it was: for every good, region and period the second run adds to the supply
what the first run added, so while the technology operates the supply of the
future commodity grows by `calcSupply` at the harvest period on every run. -/
theorem second_run_repeats_first (env : Env) (w w1 : World)
    (aRegionName aSectorName : String) (aVariableDemand aFixedOutputScaleFactor : ℚ)
    (aPeriod : Int)
    (hfirst : calcCostThenProduction env w aRegionName aSectorName aVariableDemand
        aFixedOutputScaleFactor aPeriod = .ok w1) :
    ∃ w2 cs, calcCostThenProduction env w1 aRegionName aSectorName aVariableDemand
          aFixedOutputScaleFactor aPeriod = .ok w2
      ∧ w2.tech = w1.tech
      ∧ w1.calls = w.calls ++ cs
      ∧ w2.calls = w1.calls ++ cs
      ∧ (∀ g r p, w2.supply g r p - w1.supply g r p = w1.supply g r p - w.supply g r p)
      ∧ (env.isOperating aPeriod = false → cs = [] ∧ w2.supply = w1.supply)
      ∧ (env.isOperating aPeriod = true →
          cs = operatingCalls env w.tech aRegionName aSectorName aPeriod
          ∧ w2.supply (getFutureMarket aSectorName) aRegionName aPeriod
              = w1.supply (getFutureMarket aSectorName) aRegionName aPeriod
                + env.calcSupply aRegionName aSectorName
                    (aPeriod + nRotPeriodSteps env.modeltime w.tech)) := by
  rcases calcCostThenProduction_returns env w w1 _ _ _ _ _ hfirst with
    hstate | ⟨hstate, hrot, hstep⟩
  · rw [calcCostThenProduction_idle env w _ _ _ _ _ hstate] at hfirst
    cases hfirst
    refine ⟨_, [], calcCostThenProduction_idle env _ _ _ _ _ _ hstate, ?_, by simp, by simp,
      fun g r p => by simp, fun _ => ⟨rfl, rfl⟩, fun h => by simp [hstate] at h⟩
    simp [setPhysicalOutput]
  · rw [calcCostThenProduction_operating env w _ _ _ _ _ hstate hrot hstep] at hfirst
    cases hfirst
    refine ⟨_, operatingCalls env w.tech aRegionName aSectorName aPeriod,
      calcCostThenProduction_operating env _ _ _ _ _ _ hstate hrot hstep, ?_, rfl, rfl,
      ?_, fun h => by simp [hstate] at h, fun _ => ⟨rfl, ?_⟩⟩
    · simp
    · intro g r p
      simp only [addToSupply, nRotPeriodSteps]
      split <;> ring
    · simp [addToSupply, nRotPeriodSteps]

/-- Witness for C7 (amended): period 1 of `market15`, where the first run
returns and the second adds the future supply of 4 once more. -/
theorem second_run_repeats_first_witness :
    ∃ w1, calcCostThenProduction market15 (freshWorld 45) "USA" "Lumber" 0 0 1 = .ok w1
      ∧ ∃ w2 cs, calcCostThenProduction market15 w1 "USA" "Lumber" 0 0 1 = .ok w2
        ∧ w2.tech = w1.tech
        ∧ w1.calls = (freshWorld 45).calls ++ cs
        ∧ w2.calls = w1.calls ++ cs
        ∧ (∀ g r p, w2.supply g r p - w1.supply g r p
            = w1.supply g r p - (freshWorld 45).supply g r p)
        ∧ (market15.isOperating 1 = false → cs = [] ∧ w2.supply = w1.supply)
        ∧ (market15.isOperating 1 = true →
            cs = operatingCalls market15 (freshWorld 45).tech "USA" "Lumber" 1
            ∧ w2.supply (getFutureMarket "Lumber") "USA" 1
                = w1.supply (getFutureMarket "Lumber") "USA" 1
                  + market15.calcSupply "USA" "Lumber"
                      (1 + nRotPeriodSteps market15.modeltime (freshWorld 45).tech)) :=
  ⟨_, calcCostThenProduction_operating market15 (freshWorld 45) "USA" "Lumber" 0 0 1
      (by decide) (by decide) (by decide),
    second_run_repeats_first market15 (freshWorld 45) _ "USA" "Lumber" 0 0 1
      (calcCostThenProduction_operating market15 (freshWorld 45) "USA" "Lumber" 0 0 1
        (by decide) (by decide) (by decide))⟩

/-! ## Name of the future market -/

/-- C8: for every product name `s`, `getFutureMarket( s )` is "Future" followed
by `s` ("Lumber" gives "FutureLumber"); it is never `s` itself, and two product
names give the same future name only when they are the same name. -/
theorem future_market_name (s s' : String) :
    getFutureMarket s = "Future" ++ s
    ∧ getFutureMarket "Lumber" = "FutureLumber"
    ∧ getFutureMarket s ≠ s
    ∧ (getFutureMarket s = getFutureMarket s' ↔ s = s') := by
  refine ⟨rfl, by decide, ?_, ?_, fun h => by rw [h]⟩
  · intro h
    have hlen := congrArg String.length h
    simp only [getFutureMarket, String.length_append] at hlen
    have h6 : "Future".length = 6 := by decide
    omega
  · intro h
    have hdata := congrArg String.data h
    simp only [getFutureMarket, String.data_append] at hdata
    exact String.ext (List.append_cancel_left hdata)

/-! ## Precondition of the discount factor -/

/-- Counterexample to C9 as stated: a rotation period of 10 years in 15-year
timesteps has `10 / 15 = 0` rotation steps, yet `calcDiscountFactor` does not
fail: it returns `0.02 / (1.02^10 - 1)`. -/
theorem zero_steps_do_not_fail :
    nRotPeriodSteps modeltime15 (forest 10) ≤ 0
    ∧ calcDiscountFactor (forest 10)
        = .ok ((2 / 100 : ℚ) / ((1 + 2 / 100 : ℚ) ^ (10 : ℕ) - 1))
    ∧ calcDiscountFactor (forest 10) ≠ .error .assertion := by
  have hvalue := calcDiscountFactor_of_pos (forest 10) (by decide)
  refine ⟨by decide, hvalue, ?_⟩
  rw [hvalue]
  simp

/-- C9 (amended): `calcDiscountFactor`, `calcProfitRate` and the operating
branches of `calcCost` and `production` abort on the assertion exactly when the
rotation period in years `mRotationPeriod` is not positive, whatever the
timestep; with a positive rotation period `calcDiscountFactor` returns its
value; a technology as left by the constructor (rotation period 0) fails. -/
theorem assertion_iff_rotation_years_nonpos (env : Env) (w : World)
    (base : ForestProductionTechnology) (aRegionName aSectorName : String)
    (aVariableDemand aFixedOutputScaleFactor : ℚ) (aPeriod : Int)
    (hstate : env.isOperating aPeriod = true) :
    (calcDiscountFactor w.tech = .error .assertion ↔ w.tech.mRotationPeriod ≤ 0)
    ∧ (calcDiscountFactor w.tech
        = .ok (w.tech.interestRate /
            ((1 + w.tech.interestRate) ^ w.tech.mRotationPeriod.toNat - 1))
        ↔ 0 < w.tech.mRotationPeriod)
    ∧ (calcProfitRate env w.tech aRegionName (getFutureMarket aSectorName) aPeriod
        = .error .assertion ↔ w.tech.mRotationPeriod ≤ 0)
    ∧ (calcCost env w aRegionName aSectorName aPeriod = .error .assertion
        ↔ w.tech.mRotationPeriod ≤ 0)
    ∧ (production env w aRegionName aSectorName aVariableDemand aFixedOutputScaleFactor
        aPeriod = .error .assertion ↔ w.tech.mRotationPeriod ≤ 0)
    ∧ calcDiscountFactor (construct base) = .error .assertion := by
  refine ⟨?_, ?_, ?_, ?_, ?_, calcDiscountFactor_of_nonpos _ (le_refl _)⟩
  · constructor
    · intro h
      by_contra hpos
      rw [calcDiscountFactor_of_pos _ (not_le.mp hpos)] at h
      simp at h
    · exact calcDiscountFactor_of_nonpos _
  · constructor
    · intro h
      by_contra hpos
      rw [calcDiscountFactor_of_nonpos _ (not_lt.mp hpos)] at h
      simp at h
    · exact calcDiscountFactor_of_pos _
  · constructor
    · intro h
      by_contra hpos
      rw [calcProfitRate_of_pos env _ _ _ _ (not_le.mp hpos)] at h
      simp at h
    · exact calcProfitRate_of_nonpos env _ _ _ _
  · constructor
    · intro h
      by_contra hpos
      rw [calcCost_operating env w _ _ _ hstate (not_le.mp hpos)] at h
      simp at h
    · exact calcCost_assertion env w _ _ _ hstate
  · constructor
    · intro h
      by_contra hpos
      exact production_no_assertion env w _ _ _ _ _ hstate (not_le.mp hpos) h
    · exact production_assertion env w _ _ _ _ _ hstate

/-- Witness for C9 (amended): at period 1 of `market15` a technology with a
rotation period of 0 years aborts `calcCost` on the assertion. -/
theorem assertion_iff_rotation_years_nonpos_witness :
    market15.isOperating 1 = true
    ∧ calcCost market15 (freshWorld 0) "USA" "Lumber" 1 = .error .assertion :=
  ⟨by decide,
    (assertion_iff_rotation_years_nonpos market15 (freshWorld 0) (forest 45) "USA" "Lumber"
      0 0 1 (by decide)).2.2.2.1.mpr (by decide)⟩

/-! ## Observed yield -/

/-- Counterexample to C10 as stated: with a calibrated output of 10 and a
calibrated yield of 2, `setCalLandValues` leaves 2 in `calObservedYield`, not
10 / 2 = 5. -/
theorem observed_yield_not_output_over_yield :
    (freshWorld 45).tech.mCalValue = some 10 ∧ (freshWorld 45).tech.calYield = 2
    ∧ ∃ w1, setCalLandValues market15 (freshWorld 45) = .ok w1
        ∧ w1.tech.calObservedYield = 2
        ∧ w1.tech.calObservedYield ≠ 10 / 2 := by
  have hyield : (freshWorld 45).tech.calYield ≠ -1 := by
    simp [freshWorld, forest]; norm_num
  have hfirst := (calProjection_first market15.modeltime (freshWorld 45).tech 10
    (projectedSteps market15.modeltime (freshWorld 45).tech) (freshWorld 45).calls
    (by decide)).1
  refine ⟨rfl, rfl, _, setCalLandValues_calibrated market15 (freshWorld 45) 10 rfl hyield
    (by decide), ?_, ?_⟩
  · exact hfirst
  · show (calProjection market15.modeltime (freshWorld 45).tech 10
      (projectedSteps market15.modeltime (freshWorld 45).tech) (freshWorld 45).calls
      (projectedSteps market15.modeltime (freshWorld 45).tech + 1).toNat).calObservedYield ≠ 10 / 2
    rw [hfirst]
    simp [freshWorld, forest]
    norm_num

/-- C10 (amended): when a calibrated output and a calibrated yield other than
-1 are present and the loop runs (the number of projected steps is not
negative), after `setCalLandValues` the member `calObservedYield` equals the
calibrated yield `calYield` itself; the quotient of calibrated output and
calibrated yield is the land used sent to the land allocator for the planting
period, and the calibrated yield is the observed yield sent for it. -/
theorem observed_yield_is_calibrated_yield (env : Env) (w : World) (calOutput : ℚ)
    (hcal : w.tech.mCalValue = some calOutput) (hyield : w.tech.calYield ≠ -1)
    (hstep : env.modeltime.gettimestep (env.modeltime.getyr_to_per w.tech.year) ≠ 0)
    (hruns : 0 ≤ (if w.tech.mFutureProduction.isSome then
        w.tech.mRotationPeriod.tdiv
          (env.modeltime.gettimestep (env.modeltime.getyr_to_per w.tech.year))
      else 0)) :
    ∃ w1, setCalLandValues env w = .ok w1
      ∧ w1.tech.calObservedYield = w.tech.calYield
      ∧ Call.setCalLandAllocation w.tech.landType w.tech.mName (calOutput / w.tech.calYield)
          (env.modeltime.getyr_to_per w.tech.year) (env.modeltime.getyr_to_per w.tech.year)
          ∈ w1.calls
      ∧ Call.setCalObservedYield w.tech.landType w.tech.mName w.tech.calYield
          (env.modeltime.getyr_to_per w.tech.year) ∈ w1.calls := by
  have hn : 0 ≤ projectedSteps env.modeltime w.tech := hruns
  obtain ⟨hobs, cs, hcs⟩ := calProjection_first env.modeltime w.tech calOutput
    (projectedSteps env.modeltime w.tech) w.calls hn
  refine ⟨_, setCalLandValues_calibrated env w calOutput hcal hyield hstep, hobs, ?_, ?_⟩
  · show _ ∈ (calProjection env.modeltime w.tech calOutput
      (projectedSteps env.modeltime w.tech) w.calls
      (projectedSteps env.modeltime w.tech + 1).toNat).calls
    rw [hcs]
    simp
  · show _ ∈ (calProjection env.modeltime w.tech calOutput
      (projectedSteps env.modeltime w.tech) w.calls
      (projectedSteps env.modeltime w.tech + 1).toNat).calls
    rw [hcs]
    simp

/-- Witness for C10 (amended): the technology `forest 45` in 15-year
timesteps, calibrated output 10 and calibrated yield 2. -/
theorem observed_yield_is_calibrated_yield_witness :
    ∃ w1, setCalLandValues market15 (freshWorld 45) = .ok w1
      ∧ w1.tech.calObservedYield = (freshWorld 45).tech.calYield
      ∧ Call.setCalLandAllocation (freshWorld 45).tech.landType (freshWorld 45).tech.mName
          (10 / (freshWorld 45).tech.calYield)
          (market15.modeltime.getyr_to_per (freshWorld 45).tech.year)
          (market15.modeltime.getyr_to_per (freshWorld 45).tech.year) ∈ w1.calls
      ∧ Call.setCalObservedYield (freshWorld 45).tech.landType (freshWorld 45).tech.mName
          (freshWorld 45).tech.calYield
          (market15.modeltime.getyr_to_per (freshWorld 45).tech.year) ∈ w1.calls :=
  observed_yield_is_calibrated_yield market15 (freshWorld 45) 10 rfl
    (by simp [freshWorld, forest]; norm_num) (by decide) (by decide)

/-! ## Projected yield -/

/-- Counterexample to C11 as stated: a technology planted in period 0 (1975)
with a calibrated yield of 2, a productivity change of 0.01 and 15-year
timesteps. The second step of the projection (step index 2, period 1) is
written with the yield 2, that is `2 * 1.01^(15 * (1 - 1))` from the period
number 1, and not with `2 * 1.01^(15 * (2 - 1))` from the step index 2. -/
theorem projected_yield_not_from_step_index :
    market15.modeltime.getyr_to_per world1975.tech.year = 0
    ∧ ∃ w1 cs, setCalLandValues market15 world1975 = .ok w1
      ∧ w1.calls = world1975.calls ++ cs
      ∧ Call.setCalObservedYield "ForestLand" "Forest" 2 1 ∈ cs
      ∧ Call.setCalObservedYield "ForestLand" "Forest"
          (2 * pow (1 + 1 / 100) (15 * (2 - 1))) 1 ∉ cs := by
  have hsteps : projectedSteps market15.modeltime world1975.tech = 3 := by decide
  have hyield : world1975.tech.calYield ≠ -1 := by
    simp [world1975, forest1975, forest]; norm_num
  have hrun := setCalLandValues_calibrated market15 world1975 10 rfl hyield (by decide)
  rw [hsteps] at hrun
  have hcalls := calProjection_written market15.modeltime world1975.tech 10 3
    world1975.calls 4 (by decide)
  have hpass := calProjection_yield market15.modeltime world1975.tech 10 3 world1975.calls 1
    (by decide) (by decide)
  have hvalue : (calProjection market15.modeltime world1975.tech 10 3 world1975.calls
      (1 + 1)).calYieldTemp = 2 := by
    rw [hpass]
    simp [world1975, forest1975, forest, market15, modeltime15]
  have hiff := fun y => written_yield_iff market15.modeltime world1975.tech 10 3
    world1975.calls 4 1 (by decide) y
  simp only [hvalue] at hiff
  refine ⟨by decide, _, _, hrun, hcalls, ?_, ?_⟩
  · exact (hiff 2).mpr rfl
  · intro hmem
    have h2 := (hiff _).mp hmem
    simp only [pow] at h2
    norm_num at h2

/-- C11 (amended): with calibration data present and `mFutureProduction` set to
a target, `setCalLandValues` returns, and for every step `k >= 1` of the
projection (`k` steps after the planting period `p`, step index `k + 1`) the one
yield written for period `p + k` is
`calYield * (1 + agProdChange)^(timestep * (p + k - 1))`: the exponent is taken
from the number of the period, `i - 1` with `i = p + k`, and is the
`timestep * k` of the step index exactly when it is equal to it, as for a
planting period of 1. The one land used written for period `p + k`, with base
period `p`, is the production of the step, `calOutput + k (target - calOutput) / n`,
divided by that yield. -/
theorem projected_yield_from_period_number (env : Env) (w : World)
    (calOutput target : ℚ) (n : Nat)
    (hcal : w.tech.mCalValue = some calOutput) (hyield : w.tech.calYield ≠ -1)
    (htarget : w.tech.mFutureProduction = some target)
    (hstep : env.modeltime.gettimestep (env.modeltime.getyr_to_per w.tech.year) ≠ 0)
    (hn : w.tech.mRotationPeriod.tdiv
        (env.modeltime.gettimestep (env.modeltime.getyr_to_per w.tech.year)) = (n : Int)) :
    ∃ w1 cs, setCalLandValues env w = .ok w1
      ∧ w1.calls = w.calls ++ cs
      ∧ ∀ k : Nat, 1 ≤ k → k ≤ n →
        (∀ y, Call.setCalObservedYield w.tech.landType w.tech.mName y
              (env.modeltime.getyr_to_per w.tech.year + k) ∈ cs
            ↔ y = w.tech.calYield * (1 + w.tech.agProdChange)
                ^ (env.modeltime.gettimestep (env.modeltime.getyr_to_per w.tech.year)
                    * (env.modeltime.getyr_to_per w.tech.year + k - 1)))
        ∧ (∀ l b, Call.setCalLandAllocation w.tech.landType w.tech.mName l
              (env.modeltime.getyr_to_per w.tech.year + k) b ∈ cs
            ↔ l = (calOutput + (k : ℚ) * (target - calOutput) / (n : ℚ))
                  / (w.tech.calYield * (1 + w.tech.agProdChange)
                      ^ (env.modeltime.gettimestep (env.modeltime.getyr_to_per w.tech.year)
                          * (env.modeltime.getyr_to_per w.tech.year + k - 1)))
              ∧ b = env.modeltime.getyr_to_per w.tech.year)
        ∧ (env.modeltime.getyr_to_per w.tech.year = 1 →
            w.tech.calYield * (1 + w.tech.agProdChange)
                ^ (env.modeltime.gettimestep (env.modeltime.getyr_to_per w.tech.year)
                    * (env.modeltime.getyr_to_per w.tech.year + k - 1))
              = w.tech.calYield * (1 + w.tech.agProdChange)
                ^ (env.modeltime.gettimestep (env.modeltime.getyr_to_per w.tech.year)
                    * ((k : Int) + 1 - 1))) := by
  have hsteps : projectedSteps env.modeltime w.tech = (n : Int) := by
    simp [projectedSteps, htarget, nRotPeriodSteps, hn]
  have hrun := setCalLandValues_calibrated env w calOutput hcal hyield hstep
  rw [hsteps] at hrun
  have hpasses : ((n : Int) + 1).toNat = n + 1 := by omega
  rw [hpasses] at hrun
  have hcalls := calProjection_written env.modeltime w.tech calOutput n w.calls (n + 1)
    (by push_cast; omega)
  refine ⟨_, _, hrun, hcalls, ?_⟩
  intro k hpos hk
  have hkn : (k : Int) ≤ (n : Int) := by exact_mod_cast hk
  have hy := calProjection_yield env.modeltime w.tech calOutput n w.calls k hpos hkn
  have hprod := calProjection_production env.modeltime w.tech calOutput target n w.calls
    htarget k hkn
  have hland := calProjection_landUsed env.modeltime w.tech calOutput n w.calls k hkn
  rw [hprod, hy] at hland
  refine ⟨?_, ?_, ?_⟩
  · intro y
    rw [written_yield_iff env.modeltime w.tech calOutput n w.calls (n + 1) k (by omega) y, hy]
  · intro l b
    rw [written_landUsed_iff env.modeltime w.tech calOutput n w.calls (n + 1) k (by omega) l b,
      hland]
    simp [mul_div_assoc]
  · intro hp
    rw [hp]
    congr 3
    ring

/-- Witness for C11 (amended): the technology planted in 1975, with 3 rotation
steps of 15 years; the yield written for period 2 is `2 * 1.01^(15 * (0 + 2 - 1))`. -/
theorem projected_yield_from_period_number_witness :
    world1975.tech.mRotationPeriod.tdiv
        (market15.modeltime.gettimestep
          (market15.modeltime.getyr_to_per world1975.tech.year)) = ((3 : Nat) : Int)
    ∧ ∃ w1 cs, setCalLandValues market15 world1975 = .ok w1
      ∧ w1.calls = world1975.calls ++ cs
      ∧ Call.setCalObservedYield world1975.tech.landType world1975.tech.mName
          (world1975.tech.calYield * (1 + world1975.tech.agProdChange)
            ^ (market15.modeltime.gettimestep
                (market15.modeltime.getyr_to_per world1975.tech.year)
              * (market15.modeltime.getyr_to_per world1975.tech.year + (2 : Nat) - 1)))
          (market15.modeltime.getyr_to_per world1975.tech.year + (2 : Nat)) ∈ cs := by
  obtain ⟨w1, cs, hrun, hcalls, hall⟩ :=
    projected_yield_from_period_number market15 world1975 10 16 3 rfl
      (by simp [world1975, forest1975, forest]; norm_num) rfl (by decide) (by decide)
  exact ⟨by decide, w1, cs, hrun, hcalls, ((hall 2 (by decide) (by decide)).1 _).mpr rfl⟩

end ForestProduction
